import Mathlib

/-!
Verification of the session/history data model of the CHATBOTMCA repository
(`chatbot/views.py`).  The Mongo collection `chat_collection` is modelled as a
list of user documents; `update_one` is modelled as rewriting the first
document matching the filter, and the positional (`$`) operators as acting on
the first matching element of the `chat_history` array, matching MongoDB
semantics.  Timestamps (`datetime.utcnow().isoformat()`) are modelled as
opaque natural numbers supplied by the caller, and the Gemini model call as an
`Except String String` outcome supplied by the caller.
-/

set_option maxHeartbeats 1000000

/-- One user-message/bot-reply pair, as stored in a session's `messages`
array (views.py stores documents of the shape `user/bot`). -/
structure Turn where
  user : String
  bot : String
  deriving DecidableEq

/-- One session object as pushed onto `chat_history`
(views.py lines 77-81 and 91-95). -/
structure SessionObj where
  session_id : String
  created_at : Nat
  messages : List Turn
  deriving DecidableEq

/-- One document of the `chats` collection: `user_id` plus the
`chat_history` array (views.py line 22). -/
structure UserDoc where
  user_id : String
  chat_history : List SessionObj
  deriving DecidableEq

/-- The `chats` Mongo collection. -/
abbrev Collection := List UserDoc

/-- `find_one` with a filter on `user_id`: the first matching document. -/
def userDoc (c : Collection) (uid : String) : Option UserDoc :=
  c.find? (fun d => d.user_id == uid)

/-- `update_one`: rewrite the first document matching the filter `p` with `f`
(MongoDB updates at most one document and picks the first match). -/
def updateFirst (p : UserDoc → Bool) (f : UserDoc → UserDoc) : Collection → Collection
  | [] => []
  | d :: ds => if p d then f d :: ds else d :: updateFirst p f ds

/-- `ensure_user_doc` (views.py lines 18-24): upsert with `$setOnInsert`, so
an existing document is left untouched and a missing one is inserted as
`user_id` plus an empty `chat_history`. -/
def ensure_user_doc (c : Collection) (uid : String) : Collection :=
  if c.any (fun d => d.user_id == uid) then c
  else c ++ [{ user_id := uid, chat_history := [] }]

/-- `generate_bot_reply` (views.py lines 27-37): the Gemini call either
returns a text, or raises and the handler returns the error text prefixed
with "[Model error] ".  The outcome of the external call is the argument. -/
def generate_bot_reply (modelResult : Except String String) : String :=
  match modelResult with
  | Except.ok t => t
  | Except.error e => "[Model error] " ++ e

/-- The dictionary extracted from a POST request: the `message` and
`session_id` entries, each possibly absent. -/
structure ReqData where
  message : Option String
  session_id : Option String
  deriving DecidableEq

/-- A POST body, as seen by views.py lines 56-60: either a valid JSON body,
or an invalid one in which case the handler falls back to
`request.POST.dict()`, the form parameters. -/
inductive ReqBody where
  | jsonBody (d : ReqData)
  | formBody (d : ReqData)
  deriving DecidableEq

/-- The `try json.loads / except: request.POST.dict()` extraction
(views.py lines 56-60). -/
def getData : ReqBody → ReqData
  | ReqBody.jsonBody d => d
  | ReqBody.formBody d => d

/-- `data.get("session_id") or None` (views.py line 66): a missing or empty
(falsy) identifier becomes `None`. -/
def normSid (o : Option String) : Option String :=
  match o with
  | none => none
  | some s => if s == "" then none else some s

/-- The message pair stored for one turn (views.py lines 80 and 87). -/
def mkTurn (message bot : String) : Turn :=
  { user := message, bot := bot }

/-- Python str.strip() on the underlying character list: whitespace dropped
from both ends (an executable counterpart of the source's .strip()). -/
def stripChars (l : List Char) : List Char :=
  ((l.dropWhile Char.isWhitespace).reverse.dropWhile Char.isWhitespace).reverse

/-- Python str.strip(), as used on the message (views.py line 62). -/
def pyStrip (s : String) : String :=
  String.mk (stripChars s.data)

/-- The Python slice s[:n]: the first n characters (views.py line 117). -/
def pyTake (n : Nat) (s : String) : String :=
  String.mk (s.data.take n)

/-- Concatenation of a list of strings (helper for `freshId`). -/
def catAll (l : List String) : String :=
  l.foldr (fun a b => a ++ b) ""

/-- `get_random_string(12)` (views.py line 76), modelled as a deterministic
generator of an identifier distinct from every identifier in the given list:
the model captures the intended collision-freedom of fresh 12-character
random identifiers. -/
def freshId (l : List String) : String :=
  catAll l ++ "x"

/-- The `session_id` values of the current user's document (the identifiers a
freshly minted one must avoid). -/
def sessionIds (c : Collection) (uid : String) : List String :=
  match userDoc c uid with
  | none => []
  | some d => d.chat_history.map (fun s => s.session_id)

/-- Whether the filter `user_id = uid, chat_history.session_id = sid`
(views.py lines 85-88) matches some document, i.e. `matched_count != 0`. -/
def matchedSession (c : Collection) (uid sid : String) : Bool :=
  c.any (fun d => d.user_id == uid && d.chat_history.any (fun s => s.session_id == sid))

/-- `$push chat_history.$.messages` (views.py line 87): append the turn to
the messages of the first session whose `session_id` matches. -/
def pushTurnToSession (sid : String) (t : Turn) : List SessionObj → List SessionObj
  | [] => []
  | s :: rest =>
    if s.session_id == sid then { s with messages := s.messages ++ [t] } :: rest
    else s :: pushTurnToSession sid t rest

/-- `update_one(filter user_id, $push chat_history)` (views.py lines 82 and
96): append a session object to the first matching user document. -/
def pushSession (c : Collection) (uid : String) (sobj : SessionObj) : Collection :=
  updateFirst (fun d => d.user_id == uid)
    (fun d => { d with chat_history := d.chat_history ++ [sobj] }) c

/-- The response of the POST branch of `chat_view`: either
`HttpResponseBadRequest` or the JSON reply. -/
inductive ChatResponse where
  | badRequest (msg : String)
  | ok (reply : String) (session_id : String)
  deriving DecidableEq

/-- The POST branch of `chat_view` (views.py lines 55-98).  `uid` is the
per-browser identifier from the Django session, `body` the POST body,
`modelResult` the outcome of the Gemini call, and `now` the current time. -/
def chat_view_post (c : Collection) (uid : String) (body : ReqBody)
    (modelResult : Except String String) (now : Nat) : Collection × ChatResponse :=
  let data := getData body
  let message := pyStrip (data.message.getD "")
  if message = "" then
    (c, ChatResponse.badRequest "No message provided")
  else
    let bot_reply := generate_bot_reply modelResult
    let c1 := ensure_user_doc c uid
    match normSid data.session_id with
    | none =>
      let sid := freshId (sessionIds c1 uid)
      let sobj : SessionObj :=
        { session_id := sid, created_at := now, messages := [mkTurn message bot_reply] }
      (pushSession c1 uid sobj, ChatResponse.ok bot_reply sid)
    | some sid =>
      if matchedSession c1 uid sid then
        (updateFirst
          (fun d => d.user_id == uid && d.chat_history.any (fun s => s.session_id == sid))
          (fun d => { d with
            chat_history := pushTurnToSession sid (mkTurn message bot_reply) d.chat_history })
          c1,
         ChatResponse.ok bot_reply sid)
      else
        let sobj : SessionObj :=
          { session_id := sid, created_at := now, messages := [mkTurn message bot_reply] }
        (pushSession c1 uid sobj, ChatResponse.ok bot_reply sid)

/-- One entry of the list returned by `history_list`. -/
structure SessionSummary where
  session_id : String
  created_at : Nat
  preview : String
  deriving DecidableEq

/-- The summary `history_list` builds for one session (views.py lines
112-122): the preview is the first 60 characters of the last message's user
text, or empty when there are no messages. -/
def sessionSummary (s : SessionObj) : SessionSummary :=
  let last_msg := s.messages.getLast?
  { session_id := s.session_id,
    created_at := s.created_at,
    preview :=
      match last_msg with
      | none => ""
      | some t => pyTake 60 t.user }

/-- `history_list` (views.py lines 101-126): summaries of the current user's
sessions, newest first (the stored list reversed); an empty list when the
user has no document. -/
def history_list (c : Collection) (uid : String) : List SessionSummary :=
  match userDoc c uid with
  | none => []
  | some d => (d.chat_history.map sessionSummary).reverse

/-- The result of `history_detail`: either the not-found shape
(`history: []`) or the messages plus `created_at` of the session. -/
inductive HistoryResult where
  | notFound
  | found (history : List Turn) (created_at : Nat)
  deriving DecidableEq

/-- `history_detail` (views.py lines 129-144): positional projection of the
first session matching `session_id` in the current user's document. -/
def history_detail (c : Collection) (uid : String) (sid : String) : HistoryResult :=
  match c.find? (fun d => d.user_id == uid && d.chat_history.any (fun s => s.session_id == sid)) with
  | none => HistoryResult.notFound
  | some d =>
    match d.chat_history.find? (fun s => s.session_id == sid) with
    | none => HistoryResult.notFound
    | some s => HistoryResult.found s.messages s.created_at

/-- The JSON outcome of `history_delete`. -/
inductive DeleteResult where
  | deleted (session_id : String)
  | notFound
  deriving DecidableEq

/-- `$pull chat_history where session_id = sid` (views.py lines 159-162):
remove every matching session object from the array. -/
def pullSessions (sid : String) (l : List SessionObj) : List SessionObj :=
  l.filter (fun s => !(s.session_id == sid))

/-- `history_delete` (views.py lines 146-168): pull the session from the
current user's `chat_history`; report success iff the document was modified
(`modified_count > 0`), i.e. iff a matching session was present. -/
def history_delete (c : Collection) (uid : String) (sid : String) :
    Collection × DeleteResult :=
  let modified :=
    match userDoc c uid with
    | none => false
    | some d => d.chat_history.any (fun s => s.session_id == sid)
  let c1 := updateFirst (fun d => d.user_id == uid)
    (fun d => { d with chat_history := pullSessions sid d.chat_history }) c
  if modified then (c1, DeleteResult.deleted sid) else (c1, DeleteResult.notFound)

/-- One store-mutating operation of the repository, for invariant reasoning:
`EnsureUser`, `RecordTurn` (the POST branch of `chat_view`, with empty or
non-empty `session_id`), and `DeleteSession`. -/
inductive Op where
  | ensure (uid : String)
  | record (uid : String) (body : ReqBody) (modelResult : Except String String) (now : Nat)
  | delete (uid : String) (sid : String)

/-- The state reached after one operation. -/
def applyOp (c : Collection) : Op → Collection
  | Op.ensure uid => ensure_user_doc c uid
  | Op.record uid body mr now => (chat_view_post c uid body mr now).1
  | Op.delete uid sid => (history_delete c uid sid).1

/-- The state reached after a sequence of operations. -/
def runOps (c : Collection) (ops : List Op) : Collection :=
  ops.foldl applyOp c

/-- Run a sequence of POST requests for one user, collecting the responses. -/
def runChat (c : Collection) (uid : String) :
    List (ReqBody × Except String String × Nat) → Collection × List ChatResponse
  | [] => (c, [])
  | inp :: rest =>
    let r := chat_view_post c uid inp.1 inp.2.1 inp.2.2
    let rr := runChat r.1 uid rest
    (rr.1, r.2 :: rr.2)

/-- The session identifiers returned by a run of POST requests. -/
def runChatSids (c : Collection) (uid : String)
    (inps : List (ReqBody × Except String String × Nat)) : List String :=
  (runChat c uid inps).2.filterMap
    (fun r => match r with
      | ChatResponse.ok _ sid => some sid
      | ChatResponse.badRequest _ => none)

/-- A request targeting an existing session identifier. -/
def recordInput (sid : String) (p : String × Except String String × Nat) :
    ReqBody × Except String String × Nat :=
  (ReqBody.jsonBody { message := some p.1, session_id := some sid }, p.2.1, p.2.2)

/-- A request with no session identifier (a new conversation). -/
def mintInput (p : String × Except String String × Nat) :
    ReqBody × Except String String × Nat :=
  (ReqBody.jsonBody { message := some p.1, session_id := none }, p.2.1, p.2.2)

/-- The session identifiers of one document are pairwise distinct
(the per-document invariant of the spec). -/
def docInv (d : UserDoc) : Prop :=
  (d.chat_history.map (fun s => s.session_id)).Nodup

/-- Every document of the collection satisfies `docInv`. -/
def collInv (c : Collection) : Prop :=
  ∀ d ∈ c, docInv d

instance : DecidablePred docInv := fun d => by
  unfold docInv
  infer_instance

instance (c : Collection) : Decidable (collInv c) := by
  unfold collInv
  infer_instance

/-! ### Helper lemmas about the store primitives -/

theorem catAll_cons (a : String) (l : List String) : catAll (a :: l) = a ++ catAll l := rfl

theorem length_le_catAll (l : List String) (s : String) (hs : s ∈ l) :
    s.length ≤ (catAll l).length := by
  induction l with
  | nil => cases hs
  | cons a rest ih =>
    rcases List.mem_cons.mp hs with h | h
    · subst h
      rw [catAll_cons, String.length_append]
      omega
    · have := ih h
      rw [catAll_cons, String.length_append]
      omega

theorem freshId_not_mem (l : List String) : freshId l ∉ l := by
  intro hmem
  have h1 : (freshId l).length ≤ (catAll l).length := length_le_catAll l _ hmem
  have h2 : (freshId l).length = (catAll l).length + 1 := by
    rw [freshId, String.length_append]
    rfl
  omega

theorem find?_cons_pos {α : Type} (p : α → Bool) (a : α) (l : List α) (h : p a = true) :
    List.find? p (a :: l) = some a :=
  List.find?_cons_of_pos l h

theorem find?_cons_neg {α : Type} (p : α → Bool) (a : α) (l : List α) (h : ¬ p a = true) :
    List.find? p (a :: l) = List.find? p l :=
  List.find?_cons_of_neg l h

theorem mem_updateFirst (p : UserDoc → Bool) (f : UserDoc → UserDoc) (c : Collection)
    (x : UserDoc) (hx : x ∈ updateFirst p f c) :
    x ∈ c ∨ ∃ d, c.find? p = some d ∧ x = f d := by
  induction c with
  | nil => simp [updateFirst] at hx
  | cons a rest ih =>
    by_cases hp : p a
    · rw [updateFirst, if_pos hp] at hx
      rcases List.mem_cons.mp hx with h | h
      · right
        exact ⟨a, by rw [List.find?_cons_of_pos _ hp], h⟩
      · left
        exact List.mem_cons_of_mem _ h
    · rw [updateFirst, if_neg hp] at hx
      rcases List.mem_cons.mp hx with h | h
      · left
        exact h ▸ List.mem_cons_self _ _
      · rcases ih h with h2 | ⟨d, hd, hfd⟩
        · left
          exact List.mem_cons_of_mem _ h2
        · right
          refine ⟨d, ?_, hfd⟩
          rw [List.find?_cons_of_neg _ hp, hd]

theorem updateFirst_of_find?_none (p : UserDoc → Bool) (f : UserDoc → UserDoc)
    (c : Collection) (h : c.find? p = none) : updateFirst p f c = c := by
  induction c with
  | nil => rfl
  | cons a rest ih =>
    by_cases hp : p a
    · rw [List.find?_cons_of_pos _ hp] at h
      cases h
    · rw [List.find?_cons_of_neg _ hp] at h
      rw [updateFirst, if_neg hp, ih h]

theorem updateFirst_of_fix (p : UserDoc → Bool) (f : UserDoc → UserDoc)
    (c : Collection) (d : UserDoc) (h : c.find? p = some d) (hfix : f d = d) :
    updateFirst p f c = c := by
  induction c with
  | nil => cases h
  | cons a rest ih =>
    by_cases hp : p a
    · rw [List.find?_cons_of_pos _ hp] at h
      cases h
      rw [updateFirst, if_pos hp, hfix]
    · rw [List.find?_cons_of_neg _ hp] at h
      rw [updateFirst, if_neg hp, ih h]

theorem mem_updateFirst_of_find? (p : UserDoc → Bool) (f : UserDoc → UserDoc)
    (c : Collection) (d : UserDoc) (h : c.find? p = some d) :
    f d ∈ updateFirst p f c := by
  induction c with
  | nil => cases h
  | cons a rest ih =>
    by_cases hp : p a
    · rw [List.find?_cons_of_pos _ hp] at h
      cases h
      rw [updateFirst, if_pos hp]
      exact List.mem_cons_self _ _
    · rw [List.find?_cons_of_neg _ hp] at h
      rw [updateFirst, if_neg hp]
      exact List.mem_cons_of_mem _ (ih h)

theorem map_userId_updateFirst (p : UserDoc → Bool) (f : UserDoc → UserDoc)
    (c : Collection) (hf : ∀ x, (f x).user_id = x.user_id) :
    (updateFirst p f c).map (fun d => d.user_id) = c.map (fun d => d.user_id) := by
  induction c with
  | nil => rfl
  | cons a rest ih =>
    by_cases hp : p a
    · rw [updateFirst, if_pos hp]
      simp [hf a]
    · rw [updateFirst, if_neg hp]
      simp [ih]

theorem userDoc_updateFirst_uid (c : Collection) (uid : String) (d : UserDoc)
    (f : UserDoc → UserDoc) (hd : userDoc c uid = some d)
    (hf : ∀ x, (f x).user_id = x.user_id) :
    userDoc (updateFirst (fun x => x.user_id == uid) f c) uid = some (f d) := by
  induction c with
  | nil => cases hd
  | cons a rest ih =>
    by_cases hp : (a.user_id == uid) = true
    · unfold userDoc at hd
      rw [find?_cons_pos (fun d => d.user_id == uid) a rest hp] at hd
      cases hd
      rw [updateFirst, if_pos hp]
      unfold userDoc
      have h2 : ((f d).user_id == uid) = true := by rw [hf d]; exact hp
      rw [find?_cons_pos (fun x => x.user_id == uid) (f d) rest h2]
    · unfold userDoc at hd
      rw [find?_cons_neg (fun d => d.user_id == uid) a rest hp] at hd
      rw [updateFirst, if_neg hp]
      unfold userDoc
      rw [find?_cons_neg (fun d => d.user_id == uid) a _ hp]
      exact ih hd

theorem userDoc_updateFirst_compound (c : Collection) (uid : String) (d : UserDoc)
    (q : UserDoc → Bool) (f : UserDoc → UserDoc)
    (hd : userDoc c uid = some d) (hq : q d = true)
    (hf : ∀ x, (f x).user_id = x.user_id) :
    userDoc (updateFirst (fun x => x.user_id == uid && q x) f c) uid = some (f d) := by
  induction c with
  | nil => cases hd
  | cons a rest ih =>
    by_cases hp : (a.user_id == uid) = true
    · unfold userDoc at hd
      rw [find?_cons_pos (fun d => d.user_id == uid) a rest hp] at hd
      cases hd
      have hpq : (d.user_id == uid && q d) = true := by rw [hp, hq]; rfl
      rw [updateFirst, if_pos hpq]
      unfold userDoc
      have h2 : ((f d).user_id == uid) = true := by rw [hf d]; exact hp
      rw [find?_cons_pos (fun x => x.user_id == uid) (f d) rest h2]
    · unfold userDoc at hd
      rw [find?_cons_neg (fun d => d.user_id == uid) a rest hp] at hd
      have hpq : ¬ (a.user_id == uid && q a) = true := by
        simp only [Bool.and_eq_true]
        intro hc
        exact hp hc.1
      rw [updateFirst, if_neg hpq]
      unfold userDoc
      rw [find?_cons_neg (fun d => d.user_id == uid) a _ hp]
      exact ih hd

theorem find?_compound_of_userDoc (c : Collection) (uid : String) (d : UserDoc)
    (q : UserDoc → Bool) (hd : userDoc c uid = some d) (hq : q d = true) :
    c.find? (fun x => x.user_id == uid && q x) = some d := by
  induction c with
  | nil => cases hd
  | cons a rest ih =>
    by_cases hp : (a.user_id == uid) = true
    · unfold userDoc at hd
      rw [find?_cons_pos (fun d => d.user_id == uid) a rest hp] at hd
      cases hd
      have hpq : (d.user_id == uid && q d) = true := by rw [hp, hq]; rfl
      exact find?_cons_pos (fun x => x.user_id == uid && q x) d rest hpq
    · unfold userDoc at hd
      rw [find?_cons_neg (fun d => d.user_id == uid) a rest hp] at hd
      have hpq : ¬ (a.user_id == uid && q a) = true := by
        simp only [Bool.and_eq_true]
        intro hc
        exact hp hc.1
      rw [find?_cons_neg (fun x => x.user_id == uid && q x) a rest hpq]
      exact ih hd

theorem uid_unique (c : Collection) (uid : String) (d : UserDoc)
    (hn : (c.map (fun x => x.user_id)).Nodup) (hd : userDoc c uid = some d)
    (x : UserDoc) (hx : x ∈ c) (hxid : x.user_id = uid) : x = d := by
  induction c with
  | nil => cases hd
  | cons a rest ih =>
    rw [List.map_cons, List.nodup_cons] at hn
    by_cases hp : (a.user_id == uid) = true
    · unfold userDoc at hd
      rw [find?_cons_pos (fun d => d.user_id == uid) a rest hp] at hd
      cases hd
      rcases List.mem_cons.mp hx with h | h
      · exact h
      · exfalso
        apply hn.1
        have hdu : d.user_id = x.user_id := by
          rw [beq_iff_eq.mp hp, hxid]
        rw [hdu]
        exact List.mem_map_of_mem (fun y => y.user_id) h
    · unfold userDoc at hd
      rw [find?_cons_neg (fun d => d.user_id == uid) a rest hp] at hd
      rcases List.mem_cons.mp hx with h | h
      · exfalso
        apply hp
        rw [h] at hxid
        exact beq_iff_eq.mpr hxid
      · exact ih hn.2 hd h

theorem find?_compound_none (c : Collection) (uid : String) (d : UserDoc)
    (q : UserDoc → Bool) (hn : (c.map (fun x => x.user_id)).Nodup)
    (hd : userDoc c uid = some d) (hq : q d = false) :
    c.find? (fun x => x.user_id == uid && q x) = none := by
  rw [List.find?_eq_none]
  intro x hx hpx
  rw [Bool.and_eq_true] at hpx
  have hxd : x = d := uid_unique c uid d hn hd x hx (beq_iff_eq.mp hpx.1)
  rw [hxd, hq] at hpx
  exact Bool.false_ne_true hpx.2

theorem userDoc_user_id (c : Collection) (uid : String) (d : UserDoc)
    (hd : userDoc c uid = some d) : d.user_id = uid := by
  have hd2 : List.find? (fun x => x.user_id == uid) c = some d := hd
  have h3 := List.find?_some hd2
  exact beq_iff_eq.mp h3

theorem ensure_of_userDoc_some (c : Collection) (uid : String) (d : UserDoc)
    (hd : userDoc c uid = some d) : ensure_user_doc c uid = c := by
  have hd2 : List.find? (fun x => x.user_id == uid) c = some d := hd
  unfold ensure_user_doc
  have h3 := List.find?_some hd2
  have h : c.any (fun x => x.user_id == uid) = true :=
    List.any_eq_true.mpr ⟨d, List.mem_of_find?_eq_some hd2, h3⟩
  simp [h]

theorem ensure_of_userDoc_none (c : Collection) (uid : String)
    (hd : userDoc c uid = none) :
    ensure_user_doc c uid = c ++ [{ user_id := uid, chat_history := [] }] := by
  unfold userDoc at hd
  have hall := List.find?_eq_none.mp hd
  have h : c.any (fun x => x.user_id == uid) = false := by
    by_contra hc
    rw [Bool.not_eq_false, List.any_eq_true] at hc
    obtain ⟨x, hx, hpx⟩ := hc
    exact hall x hx hpx
  unfold ensure_user_doc
  simp [h]

theorem find?_append_of_none {α : Type} (p : α → Bool) (l₁ l₂ : List α)
    (h : l₁.find? p = none) : (l₁ ++ l₂).find? p = l₂.find? p := by
  rw [List.find?_append, h]
  rfl

theorem userDoc_ensure_none (c : Collection) (uid : String)
    (hd : userDoc c uid = none) :
    userDoc (ensure_user_doc c uid) uid = some { user_id := uid, chat_history := [] } := by
  rw [ensure_of_userDoc_none c uid hd]
  unfold userDoc at hd ⊢
  rw [find?_append_of_none _ _ _ hd]
  exact @find?_cons_pos UserDoc (fun d => d.user_id == uid)
    { user_id := uid, chat_history := [] } [] (beq_self_eq_true uid)

theorem userDoc_ensure_isSome (c : Collection) (uid : String) :
    ∃ d, userDoc (ensure_user_doc c uid) uid = some d ∧ d.user_id = uid := by
  cases h : userDoc c uid with
  | some d =>
    refine ⟨d, ?_, userDoc_user_id c uid d h⟩
    rw [ensure_of_userDoc_some c uid d h]
    exact h
  | none =>
    refine ⟨{ user_id := uid, chat_history := [] }, userDoc_ensure_none c uid h, ?_⟩
    rfl

theorem userDoc_pushSession (c : Collection) (uid : String) (d : UserDoc) (sobj : SessionObj)
    (hd : userDoc c uid = some d) :
    userDoc (pushSession c uid sobj) uid
      = some { d with chat_history := d.chat_history ++ [sobj] } :=
  userDoc_updateFirst_uid c uid d _ hd (fun _ => rfl)

theorem pushTurn_map_sid (sid : String) (t : Turn) (l : List SessionObj) :
    (pushTurnToSession sid t l).map (fun s => s.session_id)
      = l.map (fun s => s.session_id) := by
  induction l with
  | nil => rfl
  | cons a rest ih =>
    by_cases ha : (a.session_id == sid) = true
    · rw [pushTurnToSession, if_pos ha]
      simp
    · rw [pushTurnToSession, if_neg ha]
      simp [ih]

theorem pushTurn_find? (sid : String) (t : Turn) (l : List SessionObj) (s0 : SessionObj)
    (h : l.find? (fun s => s.session_id == sid) = some s0) :
    (pushTurnToSession sid t l).find? (fun s => s.session_id == sid)
      = some { s0 with messages := s0.messages ++ [t] } := by
  induction l with
  | nil => cases h
  | cons a rest ih =>
    by_cases ha : (a.session_id == sid) = true
    · rw [find?_cons_pos (fun s => s.session_id == sid) a rest ha] at h
      cases h
      rw [pushTurnToSession, if_pos ha]
      exact find?_cons_pos (fun s => s.session_id == sid)
        { s0 with messages := s0.messages ++ [t] } rest ha
    · rw [find?_cons_neg (fun s => s.session_id == sid) a rest ha] at h
      rw [pushTurnToSession, if_neg ha]
      rw [find?_cons_neg (fun s => s.session_id == sid) a _ ha]
      exact ih h

theorem pushTurn_exists_mem (sid : String) (t : Turn) (l : List SessionObj)
    (h : l.any (fun s => s.session_id == sid) = true) :
    ∃ s ∈ pushTurnToSession sid t l, t ∈ s.messages := by
  induction l with
  | nil => cases h
  | cons a rest ih =>
    by_cases ha : (a.session_id == sid) = true
    · refine ⟨{ a with messages := a.messages ++ [t] }, ?_, ?_⟩
      · rw [pushTurnToSession, if_pos ha]
        exact List.mem_cons_self _ _
      · simp
    · rw [List.any_cons] at h
      have hrest : rest.any (fun s => s.session_id == sid) = true := by
        rcases Bool.or_eq_true_iff.mp h with h1 | h1
        · exact absurd h1 ha
        · exact h1
      obtain ⟨s, hs, hts⟩ := ih hrest
      refine ⟨s, ?_, hts⟩
      rw [pushTurnToSession, if_neg ha]
      exact List.mem_cons_of_mem _ hs

theorem pullSessions_any_false (sid : String) (l : List SessionObj) :
    (pullSessions sid l).any (fun s => s.session_id == sid) = false := by
  by_contra hc
  rw [Bool.not_eq_false, List.any_eq_true] at hc
  obtain ⟨s, hs, hps⟩ := hc
  obtain ⟨hs1, hs2⟩ := List.mem_filter.mp hs
  rw [hps] at hs2
  cases hs2

theorem pullSessions_cons (sid : String) (a : SessionObj) (rest : List SessionObj) :
    pullSessions sid (a :: rest)
      = if (a.session_id == sid) = true then pullSessions sid rest
        else a :: pullSessions sid rest := by
  unfold pullSessions
  rw [List.filter_cons]
  by_cases ha : (a.session_id == sid) = true
  · simp [ha]
  · simp [ha]

theorem pullSessions_idem (sid : String) (l : List SessionObj) :
    pullSessions sid (pullSessions sid l) = pullSessions sid l := by
  induction l with
  | nil => rfl
  | cons a rest ih =>
    by_cases ha : (a.session_id == sid) = true
    · rw [pullSessions_cons, if_pos ha, ih]
    · rw [pullSessions_cons, if_neg ha, pullSessions_cons, if_neg ha, ih]

theorem pullSessions_map_nodup (sid : String) (l : List SessionObj)
    (h : (l.map (fun s => s.session_id)).Nodup) :
    ((pullSessions sid l).map (fun s => s.session_id)).Nodup :=
  h.sublist ((List.filter_sublist l).map (fun s => s.session_id))

theorem matchedSession_of (c : Collection) (uid sid : String) (d : UserDoc)
    (hd : userDoc c uid = some d)
    (hs : d.chat_history.any (fun x => x.session_id == sid) = true) :
    matchedSession c uid sid = true := by
  have hd2 : List.find? (fun x => x.user_id == uid) c = some d := hd
  rw [matchedSession, List.any_eq_true]
  refine ⟨d, List.mem_of_find?_eq_some hd2, ?_⟩
  rw [Bool.and_eq_true]
  have h3 := List.find?_some hd2
  exact ⟨h3, hs⟩

theorem matchedSession_false_first (c : Collection) (uid sid : String) (d : UserDoc)
    (hm : matchedSession c uid sid = false) (hd : userDoc c uid = some d) :
    d.chat_history.any (fun x => x.session_id == sid) = false := by
  by_contra hc
  rw [Bool.not_eq_false] at hc
  rw [matchedSession_of c uid sid d hd hc] at hm
  cases hm

theorem sessionIds_eq (c : Collection) (uid : String) (d : UserDoc)
    (hd : userDoc c uid = some d) :
    sessionIds c uid = d.chat_history.map (fun s => s.session_id) := by
  unfold sessionIds
  rw [hd]

/-! ### Preservation of the session-id uniqueness invariant -/

theorem docInv_push_fresh (d : UserDoc) (sobj : SessionObj) (hinv : docInv d)
    (hfresh : sobj.session_id ∉ d.chat_history.map (fun s => s.session_id)) :
    docInv { d with chat_history := d.chat_history ++ [sobj] } := by
  unfold docInv at hinv ⊢
  rw [List.map_append, List.nodup_append]
  refine ⟨hinv, List.nodup_singleton _, ?_⟩
  intro x hx hx2
  have hx3 : x = sobj.session_id := by
    simpa using hx2
  subst hx3
  exact hfresh hx

theorem collInv_ensure (c : Collection) (uid : String) (h : collInv c) :
    collInv (ensure_user_doc c uid) := by
  intro d hd
  unfold ensure_user_doc at hd
  by_cases hany : c.any (fun x => x.user_id == uid) = true
  · rw [if_pos hany] at hd
    exact h d hd
  · rw [if_neg hany] at hd
    rcases List.mem_append.mp hd with h1 | h1
    · exact h d h1
    · rw [List.mem_singleton] at h1
      subst h1
      unfold docInv
      exact List.nodup_nil

theorem collInv_pushSession_fresh (c : Collection) (uid : String) (sobj : SessionObj)
    (h : collInv c) (hfresh : sobj.session_id ∉ sessionIds c uid) :
    collInv (pushSession c uid sobj) := by
  intro x hx
  rcases mem_updateFirst _ _ c x hx with h1 | ⟨d, hd, rfl⟩
  · exact h x h1
  · have hdoc : userDoc c uid = some d := hd
    have hids := sessionIds_eq c uid d hdoc
    apply docInv_push_fresh d sobj (h d (List.mem_of_find?_eq_some hd))
    rw [← hids]
    exact hfresh

theorem collInv_appendTurn (c : Collection) (uid sid : String) (t : Turn)
    (h : collInv c) :
    collInv (updateFirst
      (fun d => d.user_id == uid && d.chat_history.any (fun s => s.session_id == sid))
      (fun d => { d with chat_history := pushTurnToSession sid t d.chat_history }) c) := by
  intro x hx
  rcases mem_updateFirst _ _ c x hx with h1 | ⟨d, hd, rfl⟩
  · exact h x h1
  · have hdinv := h d (List.mem_of_find?_eq_some hd)
    unfold docInv at hdinv ⊢
    rw [pushTurn_map_sid]
    exact hdinv

theorem sid_not_in_first (c : Collection) (uid sid : String)
    (hm : matchedSession c uid sid = false) :
    sid ∉ sessionIds c uid := by
  intro hmem
  unfold sessionIds at hmem
  cases hd : userDoc c uid with
  | none =>
    rw [hd] at hmem
    cases hmem
  | some d =>
    rw [hd] at hmem
    have hany : d.chat_history.any (fun x => x.session_id == sid) = true := by
      rw [List.any_eq_true]
      obtain ⟨s, hs, hsid⟩ := List.mem_map.mp hmem
      refine ⟨s, hs, ?_⟩
      rw [hsid]
      exact beq_self_eq_true sid
    rw [matchedSession_of c uid sid d hd hany] at hm
    cases hm

theorem history_delete_fst (c : Collection) (uid sid : String) :
    (history_delete c uid sid).1
      = updateFirst (fun d => d.user_id == uid)
          (fun d => { d with chat_history := pullSessions sid d.chat_history }) c := by
  simp only [history_delete]
  split
  · rfl
  · rfl

theorem collInv_delete (c : Collection) (uid sid : String) (h : collInv c) :
    collInv (history_delete c uid sid).1 := by
  rw [history_delete_fst]
  intro x hx
  rcases mem_updateFirst _ _ c x hx with h1 | ⟨d, hd, rfl⟩
  · exact h x h1
  · have hdinv := h d (List.mem_of_find?_eq_some hd)
    unfold docInv at hdinv ⊢
    exact pullSessions_map_nodup sid _ hdinv

theorem collInv_chat_view_post (c : Collection) (uid : String) (body : ReqBody)
    (mr : Except String String) (now : Nat) (h : collInv c) :
    collInv (chat_view_post c uid body mr now).1 := by
  have hens : collInv (ensure_user_doc c uid) := collInv_ensure c uid h
  simp only [chat_view_post]
  split
  · exact h
  · split
    · exact collInv_pushSession_fresh _ uid _ hens (freshId_not_mem _)
    · split
      · exact collInv_appendTurn _ uid _ _ hens
      · rename_i hms
        exact collInv_pushSession_fresh _ uid _ hens
          (sid_not_in_first _ uid _ (Bool.eq_false_iff.mpr hms))

theorem applyOp_collInv (c : Collection) (op : Op) (h : collInv c) :
    collInv (applyOp c op) := by
  cases op with
  | ensure uid => exact collInv_ensure c uid h
  | record uid body mr now => exact collInv_chat_view_post c uid body mr now h
  | delete uid sid => exact collInv_delete c uid sid h

/-- Claim C2: for every sequence of operations (EnsureUser, RecordTurn with
empty or non-empty session_id, DeleteSession) run sequentially on a collection
in which every document has pairwise-distinct session_id values, the
session_id values in every UserDocument remain pairwise distinct; since this
holds for all operation sequences, it holds after each prefix, i.e. after each
operation. -/
theorem session_ids_nodup_invariant (c : Collection) (ops : List Op) (h : collInv c) :
    collInv (runOps c ops) := by
  induction ops generalizing c with
  | nil => exact h
  | cons op rest ih =>
    rw [runOps, List.foldl_cons]
    exact ih _ (applyOp_collInv c op h)

/-! ### Claim theorems -/

/-- Claim C3: a POST whose message is empty or whitespace-only after
stripping is rejected as a bad request before the model call and before any
store mutation: for every outcome of the model call the collection is
returned unchanged, so no UserDocument, Session or Turn is created. -/
theorem empty_message_rejected (c : Collection) (uid : String) (body : ReqBody)
    (modelResult : Except String String) (now : Nat)
    (h : pyStrip ((getData body).message.getD "") = "") :
    chat_view_post c uid body modelResult now
      = (c, ChatResponse.badRequest "No message provided") := by
  simp only [chat_view_post]
  rw [if_pos h]

theorem empty_message_rejected_witness :
    chat_view_post [] "u" (ReqBody.jsonBody { message := some "  ", session_id := none })
        (Except.ok "r") 0
      = ([], ChatResponse.badRequest "No message provided") :=
  empty_message_rejected [] "u"
    (ReqBody.jsonBody { message := some "  ", session_id := none })
    (Except.ok "r") 0 (by decide)

/-- Claim C8: ensure_user_doc is idempotent: when no document exists for the
user it inserts one with the user_id set and an empty sessions list; when one
exists it is a no-op returning the collection (hence the document and its
sessions) unchanged, with no error; and a repeated call equals a single call,
so any number of repeats is a no-op. -/
theorem ensure_user_doc_idempotent (c : Collection) (uid : String) :
    (userDoc c uid = none →
      ensure_user_doc c uid = c ++ [{ user_id := uid, chat_history := [] }])
    ∧ (∀ d, userDoc c uid = some d → ensure_user_doc c uid = c)
    ∧ ensure_user_doc (ensure_user_doc c uid) uid = ensure_user_doc c uid := by
  refine ⟨fun h => ensure_of_userDoc_none c uid h,
    fun d h => ensure_of_userDoc_some c uid d h, ?_⟩
  obtain ⟨d, hd, _⟩ := userDoc_ensure_isSome c uid
  exact ensure_of_userDoc_some _ uid d hd

theorem ensure_user_doc_idempotent_witness :
    ensure_user_doc [] "u" = [{ user_id := "u", chat_history := [] }]
    ∧ ensure_user_doc [{ user_id := "u", chat_history := [] }] "u"
        = [{ user_id := "u", chat_history := [] }] :=
  ⟨(ensure_user_doc_idempotent [] "u").1 rfl,
   (ensure_user_doc_idempotent [{ user_id := "u", chat_history := [] }] "u").2.1
     { user_id := "u", chat_history := [] } rfl⟩

/-- Claim C10: a POST body that is not valid JSON is not rejected for that
reason: the handler falls back to the form parameters, so a form post with a
non-empty message is processed and recorded exactly as the equivalent JSON
post would be, and receives an ok reply carrying a session identifier. -/
theorem json_fallback_form_equiv (c : Collection) (uid : String) (dd : ReqData)
    (modelResult : Except String String) (now : Nat)
    (hm : ¬ pyStrip (dd.message.getD "") = "") :
    chat_view_post c uid (ReqBody.formBody dd) modelResult now
      = chat_view_post c uid (ReqBody.jsonBody dd) modelResult now
    ∧ ∃ sid, (chat_view_post c uid (ReqBody.formBody dd) modelResult now).2
        = ChatResponse.ok (generate_bot_reply modelResult) sid := by
  refine ⟨rfl, ?_⟩
  simp only [chat_view_post, getData]
  rw [if_neg hm]
  split
  · exact ⟨_, rfl⟩
  · split
    · exact ⟨_, rfl⟩
    · exact ⟨_, rfl⟩

theorem json_fallback_form_equiv_witness :
    (chat_view_post [] "u" (ReqBody.formBody { message := some "hi", session_id := none })
        (Except.ok "r") 0
      = chat_view_post [] "u" (ReqBody.jsonBody { message := some "hi", session_id := none })
        (Except.ok "r") 0)
    ∧ ∃ sid,
        (chat_view_post [] "u" (ReqBody.formBody { message := some "hi", session_id := none })
          (Except.ok "r") 0).2 = ChatResponse.ok (generate_bot_reply (Except.ok "r")) sid :=
  json_fallback_form_equiv [] "u" { message := some "hi", session_id := none }
    (Except.ok "r") 0 (by decide)

/-- Claim C1, counterexample: with the user's document present and containing
no session "abc", a POST carrying session_id "abc" does NOT mint a fresh
identifier: the supplied identifier is reused as the session_id of the newly
created Session, and that same identifier is returned. -/
theorem stale_sid_reuse_cex :
    chat_view_post [{ user_id := "u", chat_history := [] }] "u"
        (ReqBody.jsonBody { message := some "hi", session_id := some "abc" })
        (Except.ok "ok") 0
      = ([{ user_id := "u",
            chat_history := [{ session_id := "abc", created_at := 0,
                               messages := [{ user := "hi", bot := "ok" }] }] }],
         ChatResponse.ok "ok" "abc") := by
  decide

theorem chat_view_post_selfheal (c : Collection) (uid S m : String)
    (mr : Except String String) (now : Nat) (d : UserDoc)
    (hd : userDoc c uid = some d) (hm : ¬ pyStrip m = "") (hS : ¬ S = "")
    (hmiss : matchedSession c uid S = false) :
    chat_view_post c uid (ReqBody.jsonBody { message := some m, session_id := some S }) mr now
      = (pushSession c uid
           { session_id := S, created_at := now,
             messages := [mkTurn (pyStrip m) (generate_bot_reply mr)] },
         ChatResponse.ok (generate_bot_reply mr) S) := by
  have hens := ensure_of_userDoc_some c uid d hd
  have hSf : (S == "") = false := by
    rw [Bool.eq_false_iff]
    intro hc
    exact hS (beq_iff_eq.mp hc)
  have hSne : ¬ (S == "") = true := by
    rw [hSf]
    exact Bool.false_ne_true
  have hns : normSid (some S) = some S := by
    show (if (S == "") = true then none else some S) = some S
    rw [if_neg hSne]
  have hm2 : ¬ matchedSession c uid S = true := by
    rw [hmiss]
    exact Bool.false_ne_true
  simp only [chat_view_post, getData, Option.getD_some]
  rw [if_neg hm]
  simp only [hns]
  rw [hens, if_neg hm2]

/-- Claim C1 (amended): when the supplied non-empty session_id matches no
session of the user's document, chat_view falls back to the new-session path
but reuses the supplied identifier instead of minting a fresh one: a new
Session with exactly that identifier and the single new turn is appended to
the user's document, and the same identifier is returned to the caller. -/
theorem stale_sid_selfheal_reuses_id (c : Collection) (uid S m : String)
    (mr : Except String String) (now : Nat) (d : UserDoc)
    (hd : userDoc c uid = some d) (hm : ¬ pyStrip m = "") (hS : ¬ S = "")
    (hmiss : matchedSession c uid S = false) :
    chat_view_post c uid (ReqBody.jsonBody { message := some m, session_id := some S }) mr now
      = (pushSession c uid
           { session_id := S, created_at := now,
             messages := [mkTurn (pyStrip m) (generate_bot_reply mr)] },
         ChatResponse.ok (generate_bot_reply mr) S)
    ∧ userDoc (chat_view_post c uid
         (ReqBody.jsonBody { message := some m, session_id := some S }) mr now).1 uid
      = some { d with chat_history := d.chat_history ++
          [{ session_id := S, created_at := now,
             messages := [mkTurn (pyStrip m) (generate_bot_reply mr)] }] } := by
  have heq := chat_view_post_selfheal c uid S m mr now d hd hm hS hmiss
  refine ⟨heq, ?_⟩
  rw [heq]
  exact userDoc_pushSession c uid d _ hd

theorem stale_sid_selfheal_reuses_id_witness :
    chat_view_post [{ user_id := "u", chat_history := [] }] "u"
        (ReqBody.jsonBody { message := some "hi", session_id := some "s7" })
        (Except.ok "ok") 3
      = (pushSession [{ user_id := "u", chat_history := [] }] "u"
           { session_id := "s7", created_at := 3,
             messages := [mkTurn (pyStrip "hi") (generate_bot_reply (Except.ok "ok"))] },
         ChatResponse.ok (generate_bot_reply (Except.ok "ok")) "s7")
    ∧ userDoc (chat_view_post [{ user_id := "u", chat_history := [] }] "u"
         (ReqBody.jsonBody { message := some "hi", session_id := some "s7" })
         (Except.ok "ok") 3).1 "u"
      = some { user_id := "u", chat_history := [] ++
          [{ session_id := "s7", created_at := 3,
             messages := [mkTurn (pyStrip "hi") (generate_bot_reply (Except.ok "ok"))] }] } :=
  stale_sid_selfheal_reuses_id [{ user_id := "u", chat_history := [] }] "u" "s7" "hi"
    (Except.ok "ok") 3 { user_id := "u", chat_history := [] }
    rfl (by decide) (by decide) (by decide)

theorem session_ids_nodup_invariant_witness :
    collInv (runOps []
      [Op.ensure "u",
       Op.record "u" (ReqBody.jsonBody { message := some "hi", session_id := none })
         (Except.ok "r") 0,
       Op.record "u" (ReqBody.jsonBody { message := some "yo", session_id := some "s9" })
         (Except.error "e") 1,
       Op.delete "u" "s9"]) :=
  session_ids_nodup_invariant []
    [Op.ensure "u",
     Op.record "u" (ReqBody.jsonBody { message := some "hi", session_id := none })
       (Except.ok "r") 0,
     Op.record "u" (ReqBody.jsonBody { message := some "yo", session_id := some "s9" })
       (Except.error "e") 1,
     Op.delete "u" "s9"] (by decide)

theorem pushSession_stores (c : Collection) (uid : String) (sobj : SessionObj)
    (d0 : UserDoc) (hd0 : userDoc c uid = some d0) (hd0uid : d0.user_id = uid) :
    ∃ d ∈ pushSession c uid sobj, d.user_id = uid ∧ sobj ∈ d.chat_history := by
  have h := userDoc_pushSession c uid d0 sobj hd0
  have h2 : List.find? (fun x => x.user_id == uid) (pushSession c uid sobj)
      = some { d0 with chat_history := d0.chat_history ++ [sobj] } := h
  refine ⟨{ d0 with chat_history := d0.chat_history ++ [sobj] },
    List.mem_of_find?_eq_some h2, hd0uid, ?_⟩
  exact List.mem_append.mpr (Or.inr (List.mem_singleton.mpr rfl))

theorem appendTurn_stores (c : Collection) (uid sid : String) (t : Turn)
    (hms : matchedSession c uid sid = true) :
    ∃ d ∈ updateFirst
        (fun x => x.user_id == uid && x.chat_history.any (fun s => s.session_id == sid))
        (fun x => { x with chat_history := pushTurnToSession sid t x.chat_history }) c,
      d.user_id = uid ∧ ∃ s ∈ d.chat_history, t ∈ s.messages := by
  have hms2 : c.any
      (fun x => x.user_id == uid && x.chat_history.any (fun s => s.session_id == sid)) = true := hms
  have hex := List.any_eq_true.mp hms2
  cases hf : c.find?
      (fun x => x.user_id == uid && x.chat_history.any (fun s => s.session_id == sid)) with
  | none =>
    exfalso
    obtain ⟨x, hx, hpx⟩ := hex
    exact (List.find?_eq_none.mp hf x hx) hpx
  | some dm =>
    have hpdm := List.find?_some hf
    rw [Bool.and_eq_true] at hpdm
    refine ⟨{ dm with chat_history := pushTurnToSession sid t dm.chat_history },
      mem_updateFirst_of_find? _ _ c dm hf, beq_iff_eq.mp hpdm.1, ?_⟩
    exact pushTurn_exists_mem sid t dm.chat_history hpdm.2

/-- Claim C4: when the model call fails with detail e, the failure is not
propagated to the caller: the response is an ok reply equal to
"[Model error] " ++ e together with a session identifier, and a Turn whose
bot text is "[Model error] " ++ e is durably stored in some session of a
document of the user. -/
theorem model_error_recorded (c : Collection) (uid : String) (body : ReqBody)
    (e : String) (now : Nat)
    (hm : ¬ pyStrip ((getData body).message.getD "") = "") :
    ∃ sid, (chat_view_post c uid body (Except.error e) now).2
        = ChatResponse.ok ("[Model error] " ++ e) sid
    ∧ ∃ d ∈ (chat_view_post c uid body (Except.error e) now).1,
        d.user_id = uid
        ∧ ∃ s ∈ d.chat_history,
            mkTurn (pyStrip ((getData body).message.getD ""))
              ("[Model error] " ++ e) ∈ s.messages := by
  obtain ⟨d0, hd0, hd0uid⟩ := userDoc_ensure_isSome c uid
  simp only [chat_view_post]
  rw [if_neg hm]
  split
  · obtain ⟨d, hdmem, hduid, hsmem⟩ :=
      pushSession_stores (ensure_user_doc c uid) uid _ d0 hd0 hd0uid
    exact ⟨_, rfl, d, hdmem, hduid, _, hsmem, List.mem_singleton.mpr rfl⟩
  · split
    · rename_i hms
      obtain ⟨d, hdmem, hduid, s, hsmem, hts⟩ :=
        appendTurn_stores (ensure_user_doc c uid) uid _ _ hms
      exact ⟨_, rfl, d, hdmem, hduid, s, hsmem, hts⟩
    · obtain ⟨d, hdmem, hduid, hsmem⟩ :=
        pushSession_stores (ensure_user_doc c uid) uid _ d0 hd0 hd0uid
      exact ⟨_, rfl, d, hdmem, hduid, _, hsmem, List.mem_singleton.mpr rfl⟩

theorem model_error_recorded_witness :
    ∃ sid, (chat_view_post [] "u"
        (ReqBody.jsonBody { message := some "x", session_id := none })
        (Except.error "boom") 0).2
      = ChatResponse.ok ("[Model error] " ++ "boom") sid
    ∧ ∃ d ∈ (chat_view_post [] "u"
        (ReqBody.jsonBody { message := some "x", session_id := none })
        (Except.error "boom") 0).1,
        d.user_id = "u"
        ∧ ∃ s ∈ d.chat_history,
            mkTurn (pyStrip ((getData (ReqBody.jsonBody
                { message := some "x", session_id := none })).message.getD ""))
              ("[Model error] " ++ "boom") ∈ s.messages :=
  model_error_recorded [] "u" (ReqBody.jsonBody { message := some "x", session_id := none })
    "boom" 0 (by decide)

theorem find?_none_of_uid_unique (c : Collection) (uid : String) (d : UserDoc)
    (p : UserDoc → Bool)
    (hn : (c.map (fun x => x.user_id)).Nodup)
    (hd : userDoc c uid = some d)
    (himp : ∀ x, p x = true → x.user_id = uid)
    (hpd : p d = false) :
    c.find? p = none := by
  rw [List.find?_eq_none]
  intro x hx hpx
  have hxd := uid_unique c uid d hn hd x hx (himp x hpx)
  rw [hxd, hpd] at hpx
  exact Bool.false_ne_true hpx

theorem history_delete_found (c : Collection) (uid sid : String)
    (hm : (match userDoc c uid with
      | none => false
      | some x => x.chat_history.any (fun s => s.session_id == sid)) = true) :
    history_delete c uid sid
      = (updateFirst (fun x => x.user_id == uid)
          (fun x => { x with chat_history := pullSessions sid x.chat_history }) c,
         DeleteResult.deleted sid) := by
  simp only [history_delete]
  rw [if_pos hm]

theorem history_delete_notFound (c : Collection) (uid sid : String)
    (hm : ¬ (match userDoc c uid with
      | none => false
      | some x => x.chat_history.any (fun s => s.session_id == sid)) = true) :
    history_delete c uid sid
      = (updateFirst (fun x => x.user_id == uid)
          (fun x => { x with chat_history := pullSessions sid x.chat_history }) c,
         DeleteResult.notFound) := by
  simp only [history_delete]
  rw [if_neg hm]

/-- Claim C9: deleting an existing session removes exactly the matching
sessions from the user's document and reports Deleted; a subsequent
history_detail on that identifier yields the not-found shape, and a second
history_delete yields NotFound while returning the store unchanged
(idempotent, non-fatal). -/
theorem delete_session_spec (c : Collection) (uid sid : String) (d : UserDoc)
    (hn : (c.map (fun x => x.user_id)).Nodup)
    (hd : userDoc c uid = some d)
    (hs : d.chat_history.any (fun s => s.session_id == sid) = true) :
    (history_delete c uid sid).2 = DeleteResult.deleted sid
    ∧ userDoc (history_delete c uid sid).1 uid
        = some { d with chat_history := pullSessions sid d.chat_history }
    ∧ history_detail (history_delete c uid sid).1 uid sid = HistoryResult.notFound
    ∧ history_delete (history_delete c uid sid).1 uid sid
        = ((history_delete c uid sid).1, DeleteResult.notFound) := by
  have hmod : (match userDoc c uid with
      | none => false
      | some x => x.chat_history.any (fun s => s.session_id == sid)) = true := by
    rw [hd]
    exact hs
  have hfst := history_delete_fst c uid sid
  have hsnd : (history_delete c uid sid).2 = DeleteResult.deleted sid := by
    rw [history_delete_found c uid sid hmod]
  have hud : userDoc (history_delete c uid sid).1 uid
      = some { d with chat_history := pullSessions sid d.chat_history } := by
    rw [hfst]
    exact userDoc_updateFirst_uid c uid d _ hd (fun _ => rfl)
  have hn2 : ((history_delete c uid sid).1.map (fun x => x.user_id)).Nodup := by
    rw [hfst, map_userId_updateFirst (fun x => x.user_id == uid)
      (fun x => { x with chat_history := pullSessions sid x.chat_history }) c (fun _ => rfl)]
    exact hn
  have hpd : ((fun x => x.user_id == uid
        && x.chat_history.any (fun s => s.session_id == sid))
      ({ d with chat_history := pullSessions sid d.chat_history } : UserDoc)) = false := by
    show ((({ d with chat_history := pullSessions sid d.chat_history } : UserDoc)).user_id == uid
      && (pullSessions sid d.chat_history).any (fun s => s.session_id == sid)) = false
    rw [pullSessions_any_false sid d.chat_history, Bool.and_false]
  have himp : ∀ x : UserDoc, (x.user_id == uid
      && x.chat_history.any (fun s => s.session_id == sid)) = true → x.user_id = uid := by
    intro x hx
    rw [Bool.and_eq_true] at hx
    exact beq_iff_eq.mp hx.1
  have hnone := find?_none_of_uid_unique (history_delete c uid sid).1 uid
    { d with chat_history := pullSessions sid d.chat_history }
    (fun x => x.user_id == uid && x.chat_history.any (fun s => s.session_id == sid))
    hn2 hud himp hpd
  have hdet : history_detail (history_delete c uid sid).1 uid sid
      = HistoryResult.notFound := by
    unfold history_detail
    rw [hnone]
  have hmod2 : ¬ (match userDoc (history_delete c uid sid).1 uid with
      | none => false
      | some x => x.chat_history.any (fun s => s.session_id == sid)) = true := by
    rw [hud]
    intro hc
    have hc2 : (pullSessions sid d.chat_history).any (fun s => s.session_id == sid) = true := hc
    rw [pullSessions_any_false sid d.chat_history] at hc2
    exact Bool.false_ne_true hc2
  have hud2 : List.find? (fun x => x.user_id == uid) (history_delete c uid sid).1
      = some { d with chat_history := pullSessions sid d.chat_history } := hud
  have hfix : updateFirst (fun x => x.user_id == uid)
      (fun x => { x with chat_history := pullSessions sid x.chat_history })
      (history_delete c uid sid).1 = (history_delete c uid sid).1 := by
    apply updateFirst_of_fix _ _ _
      { d with chat_history := pullSessions sid d.chat_history } hud2
    show ({ d with chat_history := pullSessions sid (pullSessions sid d.chat_history) } : UserDoc)
        = { d with chat_history := pullSessions sid d.chat_history }
    rw [pullSessions_idem]
  have hdel2 : history_delete (history_delete c uid sid).1 uid sid
      = ((history_delete c uid sid).1, DeleteResult.notFound) := by
    rw [history_delete_notFound (history_delete c uid sid).1 uid sid hmod2, hfix]
  exact ⟨hsnd, hud, hdet, hdel2⟩

/-- A concrete one-session user document used by witnesses below. -/
def wDoc : UserDoc :=
  { user_id := "u",
    chat_history := [{ session_id := "s1", created_at := 0,
                       messages := [{ user := "a", bot := "b" }] }] }

theorem delete_session_spec_witness :
    (history_delete [wDoc] "u" "s1").2 = DeleteResult.deleted "s1"
    ∧ userDoc (history_delete [wDoc] "u" "s1").1 "u"
        = some { wDoc with chat_history := pullSessions "s1" wDoc.chat_history }
    ∧ history_detail (history_delete [wDoc] "u" "s1").1 "u" "s1" = HistoryResult.notFound
    ∧ history_delete (history_delete [wDoc] "u" "s1").1 "u" "s1"
        = ((history_delete [wDoc] "u" "s1").1, DeleteResult.notFound) :=
  delete_session_spec [wDoc] "u" "s1" wDoc (by decide) rfl (by decide)

theorem chat_view_post_mint (c : Collection) (uid : String) (d : UserDoc)
    (m : String) (mr : Except String String) (now : Nat)
    (hd : userDoc c uid = some d) (hm : ¬ pyStrip m = "") :
    chat_view_post c uid (ReqBody.jsonBody { message := some m, session_id := none }) mr now
      = (pushSession c uid
           { session_id := freshId (d.chat_history.map (fun s => s.session_id)),
             created_at := now,
             messages := [mkTurn (pyStrip m) (generate_bot_reply mr)] },
         ChatResponse.ok (generate_bot_reply mr)
           (freshId (d.chat_history.map (fun s => s.session_id)))) := by
  have hens := ensure_of_userDoc_some c uid d hd
  have hids : sessionIds (ensure_user_doc c uid) uid
      = d.chat_history.map (fun s => s.session_id) := by
    rw [hens]
    exact sessionIds_eq c uid d hd
  simp only [chat_view_post, getData, Option.getD_some]
  rw [if_neg hm]
  simp only [normSid]
  rw [hids, hens]

/-- The session object created by one no-session_id call: the minted
identifier, the creation time of that call, and the single new turn. -/
def mintedSession (sid : String) (p : String × Except String String × Nat) : SessionObj :=
  { session_id := sid, created_at := p.2.2,
    messages := [mkTurn (pyStrip p.1) (generate_bot_reply p.2.1)] }

/-- The response returned for one no-session_id call. -/
def mintResponse (p : String × Except String String × Nat) (sid : String) : ChatResponse :=
  ChatResponse.ok (generate_bot_reply p.2.1) sid

/-- Claim C7: starting from any state in which the user has a document, a
sequence of POSTs with no session_id mints pairwise-distinct session
identifiers (all of them also distinct from every identifier already
present), and each call appends a new Session carrying that identifier,
created_at equal to that call's time, and exactly the one new Turn. -/
theorem mint_distinct_sessions (c : Collection) (uid : String) (d : UserDoc)
    (ps : List (String × Except String String × Nat))
    (hd : userDoc c uid = some d)
    (hm : ∀ p ∈ ps, ¬ pyStrip p.1 = "") :
    ∃ sids : List String,
      sids.length = ps.length
      ∧ sids.Nodup
      ∧ (∀ x ∈ sids, x ∉ d.chat_history.map (fun s => s.session_id))
      ∧ (runChat c uid (ps.map mintInput)).2 = List.zipWith mintResponse ps sids
      ∧ userDoc (runChat c uid (ps.map mintInput)).1 uid
        = some { d with chat_history :=
            d.chat_history ++ List.zipWith mintedSession sids ps } := by
  induction ps generalizing c d with
  | nil =>
    refine ⟨[], rfl, List.nodup_nil, ?_, rfl, ?_⟩
    · intro x hx
      cases hx
    · have hz : d.chat_history ++ List.zipWith mintedSession ([] : List String) [] =
        d.chat_history := List.append_nil _
      rw [hz]
      exact hd
  | cons p rest ih =>
    have hm1 := hm p (List.mem_cons_self p rest)
    have hmint := chat_view_post_mint c uid d p.1 p.2.1 p.2.2 hd hm1
    have hd1 : userDoc (pushSession c uid
        (mintedSession (freshId (d.chat_history.map (fun s => s.session_id))) p)) uid
      = some { d with chat_history := d.chat_history
          ++ [mintedSession (freshId (d.chat_history.map (fun s => s.session_id))) p] } :=
      userDoc_pushSession c uid d _ hd
    obtain ⟨sids, hlen, hnodup, havoid, hresp, hfinal⟩ :=
      ih (pushSession c uid
          (mintedSession (freshId (d.chat_history.map (fun s => s.session_id))) p))
        { d with chat_history := d.chat_history
            ++ [mintedSession (freshId (d.chat_history.map (fun s => s.session_id))) p] }
        hd1 (fun q hq => hm q (List.mem_cons_of_mem p hq))
    have hrun : runChat c uid ((p :: rest).map mintInput)
        = ((runChat (pushSession c uid
              (mintedSession (freshId (d.chat_history.map (fun s => s.session_id))) p)) uid
              (rest.map mintInput)).1,
           mintResponse p (freshId (d.chat_history.map (fun s => s.session_id)))
             :: (runChat (pushSession c uid
                  (mintedSession (freshId (d.chat_history.map (fun s => s.session_id))) p)) uid
                  (rest.map mintInput)).2) := by
      simp only [List.map_cons, runChat, mintInput]
      rw [hmint]
      rfl
    have hc1 : (runChat c uid ((p :: rest).map mintInput)).1
        = (runChat (pushSession c uid
            (mintedSession (freshId (d.chat_history.map (fun s => s.session_id))) p)) uid
            (rest.map mintInput)).1 := by
      rw [hrun]
    have hc2 : (runChat c uid ((p :: rest).map mintInput)).2
        = mintResponse p (freshId (d.chat_history.map (fun s => s.session_id)))
            :: (runChat (pushSession c uid
                (mintedSession (freshId (d.chat_history.map (fun s => s.session_id))) p)) uid
                (rest.map mintInput)).2 := by
      rw [hrun]
    have hnot : freshId (d.chat_history.map (fun s => s.session_id)) ∉ sids := by
      intro hmem
      apply havoid _ hmem
      show freshId (d.chat_history.map (fun s => s.session_id))
        ∈ (d.chat_history
            ++ [mintedSession (freshId (d.chat_history.map (fun s => s.session_id))) p]).map
          (fun s => s.session_id)
      rw [List.map_append]
      refine List.mem_append.mpr (Or.inr ?_)
      simp [mintedSession]
    refine ⟨freshId (d.chat_history.map (fun s => s.session_id)) :: sids, ?_, ?_, ?_, ?_, ?_⟩
    · simp [hlen]
    · exact List.nodup_cons.mpr ⟨hnot, hnodup⟩
    · intro x hx
      rcases List.mem_cons.mp hx with rfl | hx2
      · exact freshId_not_mem _
      · intro hmem
        apply havoid x hx2
        show x ∈ (d.chat_history
            ++ [mintedSession (freshId (d.chat_history.map (fun s => s.session_id))) p]).map
          (fun s => s.session_id)
        rw [List.map_append]
        exact List.mem_append.mpr (Or.inl hmem)
    · rw [hc2, hresp]
      rfl
    · rw [hc1, hfinal]
      simp only [List.append_assoc, List.cons_append, List.nil_append]
      rfl

/-- Concrete inputs used by the mint witness: two messages with their model
outcomes and times. -/
def wPs : List (String × Except String String × Nat) :=
  [("a", Except.ok "r", 5), ("b", Except.error "e", 6)]

theorem mint_distinct_sessions_witness :
    ∃ sids : List String,
      sids.length = wPs.length
      ∧ sids.Nodup
      ∧ (∀ x ∈ sids, x ∉ wDoc.chat_history.map (fun s => s.session_id))
      ∧ (runChat [wDoc] "u" (wPs.map mintInput)).2 = List.zipWith mintResponse wPs sids
      ∧ userDoc (runChat [wDoc] "u" (wPs.map mintInput)).1 "u"
        = some { wDoc with chat_history :=
            wDoc.chat_history ++ List.zipWith mintedSession sids wPs } :=
  mint_distinct_sessions [wDoc] "u" wDoc wPs rfl (by decide)

theorem sessionSummary_preview (s : SessionObj) :
    sessionSummary s
      = { session_id := s.session_id, created_at := s.created_at,
          preview := if h : s.messages = [] then ""
                     else pyTake 60 ((s.messages.getLast h).user) } := by
  by_cases h : s.messages = []
  · have hl : s.messages.getLast? = none := by
      rw [h]
      rfl
    simp only [sessionSummary, hl]
    rw [dif_pos h]
  · have hl : s.messages.getLast? = some (s.messages.getLast h) :=
      List.getLast?_eq_getLast s.messages h
    simp only [sessionSummary, hl]
    rw [dif_neg h]

/-- Claim C6: history_list returns, for a user with a document, one summary
per stored Session (same count) in reverse storage order, i.e.
newest-created first; each summary's preview is the first 60 characters of
the last Turn's user text, or the empty string for a Session with no
messages; and for a user with no document it returns the empty list rather
than an error. -/
theorem history_list_spec (c : Collection) (uid : String) :
    (userDoc c uid = none → history_list c uid = [])
    ∧ ∀ d, userDoc c uid = some d →
        (history_list c uid).length = d.chat_history.length
        ∧ history_list c uid
          = d.chat_history.reverse.map (fun s =>
              { session_id := s.session_id, created_at := s.created_at,
                preview := if h : s.messages = [] then ""
                           else pyTake 60 ((s.messages.getLast h).user) }) := by
  constructor
  · intro h
    simp only [history_list, h]
  · intro d hd
    constructor
    · simp only [history_list, hd]
      simp
    · simp only [history_list, hd]
      rw [List.map_reverse]
      have hfun : sessionSummary = (fun s : SessionObj =>
          ({ session_id := s.session_id, created_at := s.created_at,
             preview := if h : s.messages = [] then ""
                        else pyTake 60 ((s.messages.getLast h).user) } : SessionSummary)) :=
        funext sessionSummary_preview
      rw [hfun]

theorem history_list_spec_witness :
    history_list [] "u" = []
    ∧ ((history_list [wDoc] "u").length = wDoc.chat_history.length
       ∧ history_list [wDoc] "u" = wDoc.chat_history.reverse.map (fun s =>
           { session_id := s.session_id, created_at := s.created_at,
             preview := if h : s.messages = [] then ""
                        else pyTake 60 ((s.messages.getLast h).user) })) :=
  ⟨(history_list_spec [] "u").1 rfl, (history_list_spec [wDoc] "u").2 wDoc rfl⟩

theorem history_detail_found (c : Collection) (uid S : String) (d : UserDoc)
    (s0 : SessionObj)
    (hd : userDoc c uid = some d)
    (hfind : d.chat_history.find? (fun s => s.session_id == S) = some s0) :
    history_detail c uid S = HistoryResult.found s0.messages s0.created_at := by
  have hmem := List.mem_of_find?_eq_some hfind
  have hps0 := List.find?_some hfind
  have hany : d.chat_history.any (fun s => s.session_id == S) = true :=
    List.any_eq_true.mpr ⟨s0, hmem, hps0⟩
  have hcomp : c.find? (fun x => x.user_id == uid
      && x.chat_history.any (fun s => s.session_id == S)) = some d := by
    have h := find?_compound_of_userDoc c uid d
      (fun x => x.chat_history.any (fun s => s.session_id == S)) hd hany
    exact h
  simp only [history_detail, hcomp, hfind]

theorem chat_view_post_append (c : Collection) (uid S m : String)
    (mr : Except String String) (now : Nat) (d : UserDoc) (s0 : SessionObj)
    (hd : userDoc c uid = some d)
    (hfind : d.chat_history.find? (fun s => s.session_id == S) = some s0)
    (hm : ¬ pyStrip m = "") (hS : ¬ S = "") :
    chat_view_post c uid (ReqBody.jsonBody { message := some m, session_id := some S }) mr now
      = (updateFirst
          (fun x => x.user_id == uid && x.chat_history.any (fun s => s.session_id == S))
          (fun x => { x with chat_history :=
              pushTurnToSession S (mkTurn (pyStrip m) (generate_bot_reply mr)) x.chat_history })
          c,
         ChatResponse.ok (generate_bot_reply mr) S) := by
  have hens := ensure_of_userDoc_some c uid d hd
  have hmem := List.mem_of_find?_eq_some hfind
  have hps0 := List.find?_some hfind
  have hany : d.chat_history.any (fun s => s.session_id == S) = true :=
    List.any_eq_true.mpr ⟨s0, hmem, hps0⟩
  have hms : matchedSession c uid S = true := matchedSession_of c uid S d hd hany
  have hSne : ¬ (S == "") = true := by
    intro hc
    exact hS (beq_iff_eq.mp hc)
  have hns : normSid (some S) = some S := by
    show (if (S == "") = true then none else some S) = some S
    rw [if_neg hSne]
  simp only [chat_view_post, getData, Option.getD_some]
  rw [if_neg hm]
  simp only [hns]
  rw [hens, if_pos hms]

theorem updateTurn_userDoc (c : Collection) (uid S : String) (t : Turn)
    (d : UserDoc)
    (hd : userDoc c uid = some d)
    (hany : d.chat_history.any (fun s => s.session_id == S) = true) :
    userDoc (updateFirst
        (fun x => x.user_id == uid && x.chat_history.any (fun s => s.session_id == S))
        (fun x => { x with chat_history := pushTurnToSession S t x.chat_history }) c) uid
      = some { d with chat_history := pushTurnToSession S t d.chat_history } := by
  have h := userDoc_updateFirst_compound c uid d
    (fun x => x.chat_history.any (fun s => s.session_id == S))
    (fun x => { x with chat_history := pushTurnToSession S t x.chat_history })
    hd hany (fun _ => rfl)
  exact h

theorem runChat_append_aux (uid S : String) (hS : ¬ S = "")
    (ps : List (String × Except String String × Nat)) :
    (∀ p ∈ ps, ¬ pyStrip p.1 = "") →
    ∀ (c : Collection) (d : UserDoc) (s0 : SessionObj),
      userDoc c uid = some d →
      d.chat_history.find? (fun s => s.session_id == S) = some s0 →
      ∃ d2, userDoc (runChat c uid (ps.map (recordInput S))).1 uid = some d2
        ∧ d2.chat_history.find? (fun s => s.session_id == S)
          = some { s0 with messages := s0.messages ++ ps.map (fun p => mkTurn (pyStrip p.1) (generate_bot_reply p.2.1)) }
        ∧ (runChat c uid (ps.map (recordInput S))).2
          = ps.map (fun p => ChatResponse.ok (generate_bot_reply p.2.1) S) := by
  induction ps with
  | nil =>
    intro _ c d s0 hd hfind
    refine ⟨d, hd, ?_, rfl⟩
    have h1 : s0.messages
        ++ List.map (fun p => mkTurn (pyStrip p.1) (generate_bot_reply p.2.1))
             ([] : List (String × Except String String × Nat))
        = s0.messages := List.append_nil _
    rw [h1]
    exact hfind
  | cons p rest ih =>
    intro hm c d s0 hd hfind
    have hm1 := hm p (List.mem_cons_self p rest)
    have hmem := List.mem_of_find?_eq_some hfind
    have hps0 := List.find?_some hfind
    have hany : d.chat_history.any (fun s => s.session_id == S) = true :=
      List.any_eq_true.mpr ⟨s0, hmem, hps0⟩
    have hstep := chat_view_post_append c uid S p.1 p.2.1 p.2.2 d s0 hd hfind hm1 hS
    have hud1 := updateTurn_userDoc c uid S
      (mkTurn (pyStrip p.1) (generate_bot_reply p.2.1)) d hd hany
    have hfind1 : ({ d with chat_history := pushTurnToSession S (mkTurn (pyStrip p.1) (generate_bot_reply p.2.1)) d.chat_history } : UserDoc).chat_history.find? (fun s => s.session_id == S)
        = some { s0 with messages := s0.messages ++ [mkTurn (pyStrip p.1) (generate_bot_reply p.2.1)] } := by
      show (pushTurnToSession S (mkTurn (pyStrip p.1) (generate_bot_reply p.2.1))
          d.chat_history).find? (fun s => s.session_id == S) = _
      exact pushTurn_find? S (mkTurn (pyStrip p.1) (generate_bot_reply p.2.1))
        d.chat_history s0 hfind
    obtain ⟨d2, hud2, hfind2, hresp2⟩ :=
      ih (fun q hq => hm q (List.mem_cons_of_mem p hq))
        (updateFirst
          (fun x => x.user_id == uid && x.chat_history.any (fun s => s.session_id == S))
          (fun x => { x with chat_history := pushTurnToSession S (mkTurn (pyStrip p.1) (generate_bot_reply p.2.1)) x.chat_history }) c)
        { d with chat_history := pushTurnToSession S (mkTurn (pyStrip p.1) (generate_bot_reply p.2.1)) d.chat_history }
        { s0 with messages := s0.messages ++ [mkTurn (pyStrip p.1) (generate_bot_reply p.2.1)] }
        hud1 hfind1
    have hrun : runChat c uid ((p :: rest).map (recordInput S))
        = ((runChat (updateFirst
              (fun x => x.user_id == uid && x.chat_history.any (fun s => s.session_id == S))
              (fun x => { x with chat_history := pushTurnToSession S (mkTurn (pyStrip p.1) (generate_bot_reply p.2.1)) x.chat_history }) c) uid
              (rest.map (recordInput S))).1,
           ChatResponse.ok (generate_bot_reply p.2.1) S
             :: (runChat (updateFirst
                  (fun x => x.user_id == uid && x.chat_history.any (fun s => s.session_id == S))
                  (fun x => { x with chat_history := pushTurnToSession S (mkTurn (pyStrip p.1) (generate_bot_reply p.2.1)) x.chat_history }) c) uid
                  (rest.map (recordInput S))).2) := by
      simp only [List.map_cons, runChat, recordInput]
      rw [hstep]
    have hc1 : (runChat c uid ((p :: rest).map (recordInput S))).1
        = (runChat (updateFirst
            (fun x => x.user_id == uid && x.chat_history.any (fun s => s.session_id == S))
            (fun x => { x with chat_history := pushTurnToSession S (mkTurn (pyStrip p.1) (generate_bot_reply p.2.1)) x.chat_history }) c) uid
            (rest.map (recordInput S))).1 := by
      rw [hrun]
    have hc2 : (runChat c uid ((p :: rest).map (recordInput S))).2
        = ChatResponse.ok (generate_bot_reply p.2.1) S
            :: (runChat (updateFirst
                (fun x => x.user_id == uid && x.chat_history.any (fun s => s.session_id == S))
                (fun x => { x with chat_history := pushTurnToSession S (mkTurn (pyStrip p.1) (generate_bot_reply p.2.1)) x.chat_history }) c) uid
                (rest.map (recordInput S))).2 := by
      rw [hrun]
    refine ⟨d2, ?_, ?_, ?_⟩
    · rw [hc1]
      exact hud2
    · rw [hfind2]
      simp only [List.map_cons, List.append_assoc, List.cons_append, List.nil_append]
    · rw [hc2, hresp2]
      simp only [List.map_cons]

/-- Claim C5, counterexample: for an existing Session that already holds one
Turn, K = 1 further RecordTurn call targeting its session_id leaves
GetSession returning 2 Turns, not exactly K = 1 — the claim as stated fails
for sessions that exist before the K calls begin. -/
theorem get_session_exactly_k_cex :
    history_detail (chat_view_post [wDoc] "u"
        (ReqBody.jsonBody { message := some "c", session_id := some "s1" })
        (Except.ok "d") 9).1 "u" "s1"
      = HistoryResult.found [{ user := "a", bot := "b" }, { user := "c", bot := "d" }] 0 := by
  decide

/-- A concrete user document with no sessions, used by witnesses. -/
def wDoc0 : UserDoc := { user_id := "u", chat_history := [] }

/-- Claim C5 (amended): for a user whose document contains no Session with
the (non-empty) identifier S, K sequential RecordTurn calls targeting S — the
first of which creates the Session via the self-heal path — leave GetSession
returning exactly the K submitted Turns, in submission order with each new
Turn appended at the tail (none lost, reordered or duplicated), with
created_at the time of the first call; every call returns identifier S. -/
theorem record_turns_in_order (c : Collection) (uid S : String) (d : UserDoc)
    (ps : List (String × Except String String × Nat))
    (hd : userDoc c uid = some d)
    (hmiss : matchedSession c uid S = false)
    (hS : ¬ S = "")
    (hm : ∀ p ∈ ps, ¬ pyStrip p.1 = "")
    (hne : ps ≠ []) :
    history_detail (runChat c uid (ps.map (recordInput S))).1 uid S
      = HistoryResult.found
          (ps.map (fun p => mkTurn (pyStrip p.1) (generate_bot_reply p.2.1)))
          ((ps.head hne).2.2)
    ∧ (runChat c uid (ps.map (recordInput S))).2
      = ps.map (fun p => ChatResponse.ok (generate_bot_reply p.2.1) S) := by
  cases ps with
  | nil => exact absurd rfl hne
  | cons p rest =>
    have hm1 := hm p (List.mem_cons_self p rest)
    have hstep := chat_view_post_selfheal c uid S p.1 p.2.1 p.2.2 d hd hm1 hS hmiss
    have hud1 := userDoc_pushSession c uid d
      { session_id := S, created_at := p.2.2, messages := [mkTurn (pyStrip p.1) (generate_bot_reply p.2.1)] } hd
    have hanyf : d.chat_history.any (fun s => s.session_id == S) = false :=
      matchedSession_false_first c uid S d hmiss hd
    have hfnone : d.chat_history.find? (fun s => s.session_id == S) = none := by
      rw [List.find?_eq_none]
      intro x hx hpx
      have hc : d.chat_history.any (fun s => s.session_id == S) = true :=
        List.any_eq_true.mpr ⟨x, hx, hpx⟩
      rw [hanyf] at hc
      exact Bool.false_ne_true hc
    have hfind1 : ({ d with chat_history := d.chat_history ++ [{ session_id := S, created_at := p.2.2, messages := [mkTurn (pyStrip p.1) (generate_bot_reply p.2.1)] }] } : UserDoc).chat_history.find? (fun s => s.session_id == S)
        = some { session_id := S, created_at := p.2.2, messages := [mkTurn (pyStrip p.1) (generate_bot_reply p.2.1)] } := by
      show (d.chat_history ++ [({ session_id := S, created_at := p.2.2, messages := [mkTurn (pyStrip p.1) (generate_bot_reply p.2.1)] } : SessionObj)]).find? (fun s => s.session_id == S) = _
      rw [find?_append_of_none _ _ _ hfnone]
      exact @find?_cons_pos SessionObj (fun s => s.session_id == S)
        { session_id := S, created_at := p.2.2, messages := [mkTurn (pyStrip p.1) (generate_bot_reply p.2.1)] } []
        (beq_self_eq_true S)
    obtain ⟨d2, hud2, hfind2, hresp2⟩ := runChat_append_aux uid S hS rest
      (fun q hq => hm q (List.mem_cons_of_mem p hq))
      (pushSession c uid { session_id := S, created_at := p.2.2, messages := [mkTurn (pyStrip p.1) (generate_bot_reply p.2.1)] })
      { d with chat_history := d.chat_history ++ [{ session_id := S, created_at := p.2.2, messages := [mkTurn (pyStrip p.1) (generate_bot_reply p.2.1)] }] }
      { session_id := S, created_at := p.2.2, messages := [mkTurn (pyStrip p.1) (generate_bot_reply p.2.1)] }
      hud1 hfind1
    have hrun : runChat c uid ((p :: rest).map (recordInput S))
        = ((runChat (pushSession c uid { session_id := S, created_at := p.2.2, messages := [mkTurn (pyStrip p.1) (generate_bot_reply p.2.1)] }) uid (rest.map (recordInput S))).1,
           ChatResponse.ok (generate_bot_reply p.2.1) S
             :: (runChat (pushSession c uid { session_id := S, created_at := p.2.2, messages := [mkTurn (pyStrip p.1) (generate_bot_reply p.2.1)] }) uid (rest.map (recordInput S))).2) := by
      simp only [List.map_cons, runChat, recordInput]
      rw [hstep]
    have hc1 : (runChat c uid ((p :: rest).map (recordInput S))).1
        = (runChat (pushSession c uid { session_id := S, created_at := p.2.2, messages := [mkTurn (pyStrip p.1) (generate_bot_reply p.2.1)] }) uid (rest.map (recordInput S))).1 := by
      rw [hrun]
    have hc2 : (runChat c uid ((p :: rest).map (recordInput S))).2
        = ChatResponse.ok (generate_bot_reply p.2.1) S
            :: (runChat (pushSession c uid { session_id := S, created_at := p.2.2, messages := [mkTurn (pyStrip p.1) (generate_bot_reply p.2.1)] }) uid (rest.map (recordInput S))).2 := by
      rw [hrun]
    constructor
    · rw [hc1]
      have hdet := history_detail_found _ uid S d2 _ hud2 hfind2
      rw [hdet]
      rfl
    · rw [hc2, hresp2]
      rfl

theorem record_turns_in_order_witness :
    history_detail (runChat [wDoc0] "u" (wPs.map (recordInput "s1"))).1 "u" "s1"
      = HistoryResult.found
          (wPs.map (fun p => mkTurn (pyStrip p.1) (generate_bot_reply p.2.1)))
          ((wPs.head (List.cons_ne_nil _ _)).2.2)
    ∧ (runChat [wDoc0] "u" (wPs.map (recordInput "s1"))).2
      = wPs.map (fun p => ChatResponse.ok (generate_bot_reply p.2.1) "s1") :=
  record_turns_in_order [wDoc0] "u" "s1" wDoc0 wPs rfl (by decide) (by decide)
    (by decide) (List.cons_ne_nil _ _)
